import Mathlib

/-!
Verification of the rpm-ostree node-updater client
(`pkg/daemon` of the machine-config-operator fork).

The Go source is shallowly embedded: external commands are oracles
(`Commander`, `Env`), and every embedded operation additionally returns the
ordered list of host calls it performed (`HostCall` trace), so that claims
about "which host commands are issued" can be stated and proved.
-/

/-- A Go `error` value: we keep the message produced by `fmt.Errorf` /
`errors.New`.  `Option GoError` models a possibly-nil `error`. -/
structure GoError where
  msg : String
deriving DecidableEq

/-- Embeds `RpmOstreeDeployment` (src/unnamed/part_001, lines 36-46).
`Serial int32` becomes `Int`, `Timestamp uint64` becomes `Nat`; neither is
arithmetically used by the code under verification. -/
structure RpmOstreeDeployment where
  ID : String
  OSName : String
  Serial : Int
  Checksum : String
  Version : String
  Timestamp : Nat
  Booted : Bool
  Origin : String
  CustomOrigin : List String
deriving DecidableEq

/-- Embeds `rpmOstreeState` (lines 31-33): the parsed
`rpm-ostree status --json` output. -/
structure rpmOstreeState where
  Deployments : List RpmOstreeDeployment
deriving DecidableEq

/-- Embeds `KernelArgument` (lines 312-315).  `Operation` is a Go `int`. -/
structure KernelArgument where
  Operation : Int
  Name : String
deriving DecidableEq

/-- `kargRemove` from the `iota` block at lines 306-309. -/
def kargRemove : Int := 0

/-- `kargAdd` from the `iota` block at lines 306-309. -/
def kargAdd : Int := 1

/-- Only the label mapping of `types.ImageInspectInfo` / `imageInspection`
is consumed by `Rebase`; the mapping is an association list, looked up with
Go map semantics (missing key yields the zero value `""`). -/
structure ImageInfo where
  Labels : List (String × String)
deriving DecidableEq

/-- Go map indexing `m[k]` on a `map[string]string`: first binding wins,
missing key gives `""`. -/
def mapLookup (m : List (String × String)) (k : String) : String :=
  match m.find? (fun p => p.1 = k) with
  | some p => p.2
  | none => ""

/-- `realRpmOstreeCmd` (line 25). -/
def realRpmOstreeCmd : String := "/usr/bin/rpm-ostree"

/-- One host call performed by the client.  Traces of these are returned by
every embedded operation.
* `rpmOstree noun args` — an invocation of the commander
  (`r.runRpmOstreeFunc` / the package function `runRpmOstree`);
* `getOut prog args` — a `runGetOut` execution of an external program;
* `imageInspect url` / `podmanInspect url` — the two image-inspection
  collaborators used by `Rebase`;
* `podmanRmi url` — the deferred `podman rmi` cleanup. -/
inductive HostCall where
  | rpmOstree (noun : String) (args : List String)
  | getOut (prog : String) (args : List String)
  | imageInspect (url : String)
  | podmanInspect (url : String)
  | podmanRmi (url : String)
deriving DecidableEq

/-- The commander (`rpmOstreeCommander`, line 101): given noun and
arguments it yields the combined output and a possibly-nil error, the
Go pair `([]byte, error)` with `[]byte` as `String`. -/
abbrev Commander := String → List String → String × Option GoError

/-!  ### String helpers embedded from the Go standard library uses  -/

/-- Embeds the body of `quoteSpaceSplit` (lines 163-171):
`strings.FieldsFunc` with the stateful closure, scanning left to right.
`q` is the closure's `quoted` variable, `acc` the (reversed) pending field.
At each rune the closure first toggles `quoted` on `'"'` and then reports a
separator iff `!quoted && r == ' '`; empty fields are dropped. -/
def fieldsAux : List Char → Bool → List Char → List (List Char)
  | [], _, acc => if acc = [] then [] else [acc.reverse]
  | c :: cs, q, acc =>
    let q' := if c = '"' then !q else q
    if q' = false ∧ c = ' ' then
      if acc = [] then fieldsAux cs q' [] else acc.reverse :: fieldsAux cs q' []
    else fieldsAux cs q' (c :: acc)

/-- Embeds `quoteSpaceSplit` (lines 163-171). -/
def quoteSpaceSplit (s : String) : List String :=
  (fieldsAux s.data false []).map String.mk

/-- `true` iff scanning `cs` from quote-state `q` meets no separator
(no space at even quote parity): such a string is consumed as one field. -/
def noBoundary : List Char → Bool → Bool
  | [], _ => true
  | c :: cs, q =>
    let q' := if c = '"' then !q else q
    if q' = false ∧ c = ' ' then false else noBoundary cs q'

/-- The quote-state after scanning `cs` from state `q`. -/
def endQuoted : List Char → Bool → Bool
  | [], q => q
  | c :: cs, q => endQuoted cs (if c = '"' then !q else q)

/-- A string that `quoteSpaceSplit` returns as exactly one token:
nonempty and boundary-free from the initial (unquoted) state. -/
def singleKargToken (s : String) : Bool :=
  !s.data.isEmpty && noBoundary s.data false

/-- A string containing an even number of double quotes, so that the
quote-state after scanning it is back to unquoted. -/
def balancedQuotes (s : String) : Bool :=
  !endQuoted s.data false

/-- Spec-worded marking of a string for splitting: each position carries its
character and whether it is a token boundary, where ("a run of characters is
a token boundary only when not inside a double-quoted span") position `i` is
a boundary iff it holds a space and the number of `'"'` before position `i`,
offset by the initial state `q`, is even. -/
def markWith (cs : List Char) (q : Bool) : List (Char × Bool) :=
  (List.range cs.length).map fun i =>
    (cs.getD i ' ',
      decide (cs.getD i ' ' = ' ') &&
        decide (((cs.take i).count '"' + cond q 1 0) % 2 = 0))

/-- Splitting a marked string at its boundary positions, dropping empty
fields. -/
def splitMarked : List (Char × Bool) → List Char → List (List Char)
  | [], acc => if acc = [] then [] else [acc.reverse]
  | (c, b) :: rest, acc =>
    if b then
      if acc = [] then splitMarked rest [] else acc.reverse :: splitMarked rest []
    else splitMarked rest (c :: acc)

/-- The specification's description of quote-aware whitespace splitting:
split at exactly those spaces that are not inside a double-quoted span
(quote characters toggle the span), preserving quoted spaces inside tokens
and dropping empty fields. -/
def quoteSpaceSplitSpec (s : String) : List String :=
  (splitMarked (markWith s.data false) []).map String.mk

/-- Embeds `strings.HasPrefix p` applied to `s` — `strHasPfx p s` is
`true` iff `p` is a prefix of `s`. -/
def strHasPfx (p s : String) : Bool := p.data.isPrefixOf s.data

/-- `unicode.IsSpace` restricted to Latin-1, which is exactly what Go
computes for one-byte and Latin-1 runes: space, TAB, LF, VT, FF, CR,
NEL (U+0085) and NBSP (U+00A0). -/
def isGoSpace (c : Char) : Bool :=
  c = ' ' || c = '\t' || c = '\n' || c = '\x0b' || c = '\x0c' || c = '\r' ||
  c = '\x85' || c = '\xa0'

/-- Embeds `strings.TrimSpace`: drop leading and trailing whitespace. -/
def goTrimSpace (s : String) : String :=
  String.mk (((s.data.dropWhile isGoSpace).reverse.dropWhile isGoSpace).reverse)

/-- Splitting on `'\n'`, keeping empty fields: the `acc`-threaded scan of
`strings.Split(s, "\n")`.  Always returns at least one field. -/
def splitChars : List Char → List Char → List (List Char)
  | [], acc => [acc.reverse]
  | c :: cs, acc =>
    if c = '\n' then acc.reverse :: splitChars cs [] else splitChars cs (c :: acc)

/-- Embeds `strings.Split(s, "\n")`. -/
def goSplitNewline (s : String) : List String :=
  (splitChars s.data []).map String.mk

/-!  ### The rpm-ostree client operations  -/

/-- The external world seen by `RpmOstreeClient`:
* `cmdr` — the client's `runRpmOstreeFunc` field (`rpmOstreeCommander`);
* `getOut` — the results of `runGetOut prog args` for programs invoked
  directly (`ostree`, and `/usr/bin/rpm-ostree` through the package
  function `runRpmOstree`);
* `imgInspect` — the result of `imageInspect` (defined outside the
  provided sources; `Rebase` only branches on its error and reads two
  labels);
* `podInspect` — the result of `podmanInspect` (lines 182-212; its
  internals are `podman` executions and JSON decoding, abstracted to the
  labels it yields or its error);
* `parseStatus` — `json.Unmarshal` of `rpm-ostree status --json` output
  into `rpmOstreeState` (`encoding/json`, external). -/
structure Env where
  cmdr : Commander
  getOut : String → List String → String × Option GoError
  imgInspect : String → Except GoError ImageInfo
  podInspect : String → Except GoError ImageInfo
  parseStatus : String → Except GoError rpmOstreeState

/-- The `for … range` loop of `GetBootedDeployment` (lines 120-125):
return the first deployment whose `Booted` flag is set. -/
def findBooted : List RpmOstreeDeployment → Option RpmOstreeDeployment
  | [] => none
  | d :: ds => if d.Booted then some d else findBooted ds

/-- Embeds `RpmOstreeClient.GetBootedDeployment` (lines 109-128). -/
def GetBootedDeployment (env : Env) :
    Except GoError RpmOstreeDeployment × List HostCall :=
  match env.cmdr "status" ["--json"] with
  | (_, some err) => (.error err, [.rpmOstree "status" ["--json"]])
  | (output, none) =>
    match env.parseStatus output with
    | .error perr =>
      (.error ⟨"failed to parse `rpm-ostree status --json` output: " ++ perr.msg⟩,
        [.rpmOstree "status" ["--json"]])
    | .ok st =>
      match findBooted st.Deployments with
      | some d => (.ok d, [.rpmOstree "status" ["--json"]])
      | none =>
        (.error ⟨"not currently booted in a deployment"⟩,
          [.rpmOstree "status" ["--json"]])

/-- Embeds `RpmOstreeClient.GetBootedOSImageURL` (lines 143-158).  The Go
byte slice `s[len("pivot://"):]` is the character drop of 8, since the
matched prefix `"pivot://"` is 8 one-byte characters. -/
def GetBootedOSImageURL (env : Env) :
    Except GoError (String × String) × List HostCall :=
  match GetBootedDeployment env with
  | (.error e, tr) => (.error e, tr)
  | (.ok d, tr) =>
    let osImageURL :=
      match d.CustomOrigin with
      | [] => ""
      | c0 :: _ =>
        if strHasPfx "pivot://" c0 then String.mk (c0.data.drop 8) else ""
    (.ok (osImageURL, d.Version), tr)

/-- Embeds `RpmOstreeClient.GetKernelArgs` (lines 174-180). -/
def GetKernelArgs (cmdr : Commander) :
    Except GoError (List String) × List HostCall :=
  match cmdr "kargs" [] with
  | (_, some err) => (.error err, [.rpmOstree "kargs" []])
  | (out, none) => (.ok (quoteSpaceSplit out), [.rpmOstree "kargs" []])

/-- Embeds `RpmOstreeClient.isKernelArgInUse` (lines 360-372): true iff
some current kernel argument has `arg` as a prefix. -/
def isKernelArgInUse (cmdr : Commander) (arg : String) :
    Except GoError Bool × List HostCall :=
  match GetKernelArgs cmdr with
  | (.error e, tr) => (.error e, tr)
  | (.ok checkable, tr) => (.ok (checkable.any (fun v => strHasPfx arg v)), tr)

/-- One iteration of the inner loop of `SetKernelArgs` (lines 337-350):
process a single expanded token `sv` under operation `op`, extending the
queued flag list `kargs`.  `case kargAdd` queues `--append=sv`
unconditionally; `case kargRemove` queues `--delete=sv` only when the
token is in use; any other operation value matches no case. -/
def processToken (cmdr : Commander) (op : Int) (sv : String)
    (kargs : List String) : Except GoError (List String) × List HostCall :=
  if op = kargAdd then (.ok (kargs ++ ["--append=" ++ sv]), [])
  else if op = kargRemove then
    match isKernelArgInUse cmdr sv with
    | (.error e, tr) => (.error e, tr)
    | (.ok true, tr) => (.ok (kargs ++ ["--delete=" ++ sv]), tr)
    | (.ok false, tr) => (.ok kargs, tr)
  else (.ok kargs, [])

/-- The inner loop of `SetKernelArgs` over the expanded tokens of one
requested argument, with early return on error. -/
def processTokens (cmdr : Commander) (op : Int) :
    List String → List String → Except GoError (List String) × List HostCall
  | [], kargs => (.ok kargs, [])
  | sv :: svs, kargs =>
    match processToken cmdr op sv kargs with
    | (.error e, tr) => (.error e, tr)
    | (.ok kargs2, tr) =>
      match processTokens cmdr op svs kargs2 with
      | (r, tr2) => (r, tr ++ tr2)

/-- The outer loop of `SetKernelArgs` (lines 336-351) over the requested
arguments, each expanded by `quoteSpaceSplit`. -/
def processArgs (cmdr : Commander) :
    List KernelArgument → List String →
    Except GoError (List String) × List HostCall
  | [], kargs => (.ok kargs, [])
  | v :: vs, kargs =>
    match processTokens cmdr v.Operation (quoteSpaceSplit v.Name) kargs with
    | (.error e, tr) => (.error e, tr)
    | (.ok kargs2, tr) =>
      match processArgs cmdr vs kargs2 with
      | (r, tr2) => (r, tr ++ tr2)

/-- Embeds `RpmOstreeClient.SetKernelArgs` (lines 334-357): expand and
diff all requests; with no queued flags return `("", nil)` without the
kargs-setting invocation, otherwise issue the single combined
`RunRpmOstree("kargs", kargs...)` and return its output and error. -/
def SetKernelArgs (cmdr : Commander) (args : List KernelArgument) :
    (String × Option GoError) × List HostCall :=
  match processArgs cmdr args [] with
  | (.error e, tr) => (("", some e), tr)
  | (.ok kargs, tr) =>
    if kargs.length = 0 then (("", none), tr)
    else
      match cmdr "kargs" kargs with
      | (out, e) => ((out, e), tr ++ [.rpmOstree "kargs" kargs])

/-- Embeds the package function `runRpmOstree` (lines 319-329): more than
two trailing arguments fail immediately with the malformed-command error
and nothing is executed; otherwise `runGetOut(realRpmOstreeCmd, args...)`
runs — note that the source drops `noun` from the executed command line. -/
def runRpmOstree (getOut : String → List String → String × Option GoError)
    (_noun : String) (args : List String) :
    (String × Option GoError) × List HostCall :=
  if args.length > 2 then
    (("", some ⟨"rpm-ostree command is malformed, not enough arguments"⟩), [])
  else (getOut realRpmOstreeCmd args, [.getOut realRpmOstreeCmd args])

/-- Embeds `RpmOstreeClient.RemovePendingDeployment` (lines 375-378). -/
def RemovePendingDeployment (cmdr : Commander) :
    Option GoError × List HostCall :=
  match cmdr "cleanup" ["-p"] with
  | (_, e) => (e, [.rpmOstree "cleanup" ["-p"]])

/-- Embeds the local-repository fallback of `Rebase` (lines 267-291):
list the repository refs, split the trimmed listing on newlines, and
resolve through `ostree rev-parse` when the split yields exactly one
entry; more than one entry fails with `multiple refs found in repo`,
an empty split (unreachable, see `splitChars`) would fail with
`No refs found in repo`. -/
def resolveViaRepo (getOut : String → List String → String × Option GoError)
    (repo : String) : Except GoError String × List HostCall :=
  match getOut "ostree" ["refs", "--repo", repo] with
  | (_, some err) => (.error err, [.getOut "ostree" ["refs", "--repo", repo]])
  | (refText, none) =>
    let refs := goSplitNewline (goTrimSpace refText)
    if refs.length = 1 then
      let r := refs.headD ""
      match getOut "ostree" ["rev-parse", "--repo", repo, r] with
      | (_, some err) =>
        (.error err,
          [.getOut "ostree" ["refs", "--repo", repo],
           .getOut "ostree" ["rev-parse", "--repo", repo, r]])
      | (csumText, none) =>
        (.ok (goTrimSpace csumText),
          [.getOut "ostree" ["refs", "--repo", repo],
           .getOut "ostree" ["rev-parse", "--repo", repo, r]])
    else if refs.length > 1 then
      (.error ⟨"multiple refs found in repo"⟩,
        [.getOut "ostree" ["refs", "--repo", repo]])
    else
      (.error ⟨"No refs found in repo"⟩,
        [.getOut "ostree" ["refs", "--repo", repo]])

/-- Embeds the inspection phase of `Rebase` (lines 239-253): direct image
inspection, falling back to podman inspection on any error; on success the
two labels `com.coreos.ostree-commit` and `version` are extracted. -/
def inspectChecksum (env : Env) (imgURL : String) :
    Except GoError (String × String) × List HostCall :=
  match env.imgInspect imgURL with
  | .ok info =>
    (.ok (mapLookup info.Labels "com.coreos.ostree-commit",
          mapLookup info.Labels "version"),
      [.imageInspect imgURL])
  | .error _ =>
    match env.podInspect imgURL with
    | .error e => (.error e, [.imageInspect imgURL, .podmanInspect imgURL])
    | .ok info =>
      (.ok (mapLookup info.Labels "com.coreos.ostree-commit",
            mapLookup info.Labels "version"),
        [.imageInspect imgURL, .podmanInspect imgURL])

/-- The custom-origin string constructed by `Rebase` (line 294):
`fmt.Sprintf("pivot://%s", imgURL)`. -/
def rebaseCustomURL (imgURL : String) : String := "pivot://" ++ imgURL

/-- The argument vector of the rebase invocation (lines 297-298). -/
def rebaseArgs (repo ostreeCsum customURL : String) : List String :=
  ["rebase", "--experimental", repo ++ ":" ++ ostreeCsum,
   "--custom-origin-url", customURL,
   "--custom-origin-description", "Managed by machine-config-operator"]

/-- Embeds `RpmOstreeClient.Rebase` (lines 215-303).  The deferred
`podman rmi` cleanup is registered after the inspection phase, so it runs
(last) on every path from the checksum-resolution step onward.  The final
step invokes `runRpmOstree(args[0], args[1:]...)` — its invocation is
recorded as a `HostCall.rpmOstree` entry followed by whatever the wrapper
itself executes — and `changed` is set to `true` unconditionally after it. -/
def Rebase (env : Env) (imgURL osImageContentDir : String) :
    (Bool × Option GoError) × List HostCall :=
  match GetBootedDeployment env with
  | (.error e, tr0) => ((false, some e), tr0)
  | (.ok _, tr0) =>
    match inspectChecksum env imgURL with
    | (.error e, tr1) => ((false, some e), tr0 ++ tr1)
    | (.ok (csum0, _version), tr1) =>
      let repo := osImageContentDir ++ "/srv/repo"
      match (if csum0 = "" then resolveViaRepo env.getOut repo
             else (.ok csum0, [])) with
      | (.error e, tr2) =>
        ((false, some e), tr0 ++ tr1 ++ tr2 ++ [.podmanRmi imgURL])
      | (.ok ostreeCsum, tr2) =>
        let args := rebaseArgs repo ostreeCsum (rebaseCustomURL imgURL)
        match runRpmOstree env.getOut (args.headD "") args.tail with
        | ((_, err), tr3) =>
          ((true, err),
            tr0 ++ tr1 ++ tr2 ++ [.rpmOstree (args.headD "") args.tail] ++
              tr3 ++ [.podmanRmi imgURL])

/-!  ### The unsupported-host stub (src/pkg/daemon/not_cos.go)  -/

/-- `ErrNotCoreosVariant` (not_cos.go, line 28). -/
def ErrNotCoreosVariant : GoError :=
  ⟨"operating system is not a CoreOS Variant"⟩

/-- The zero value `&RpmOstreeDeployment{}` returned by the stub. -/
def zeroDeployment : RpmOstreeDeployment :=
  ⟨"", "", 0, "", "", 0, false, "", []⟩

/-- Stub `GetBootedDeployment` (not_cos.go, lines 32-34). -/
def notCoreOS_GetBootedDeployment :
    Except GoError RpmOstreeDeployment × List HostCall :=
  (.ok zeroDeployment, [])

/-- Stub `Rebase` (not_cos.go, lines 37-40). -/
def notCoreOS_Rebase (_a _b : String) :
    (Bool × Option GoError) × List HostCall :=
  ((false, some ErrNotCoreosVariant), [])

/-- Stub `SetKernelArgs` (not_cos.go, lines 62-64). -/
def notCoreOS_SetKernelArgs (_args : List KernelArgument) :
    (String × Option GoError) × List HostCall :=
  (("unsupported", some ErrNotCoreosVariant), [])

/-- Stub `RemovePendingDeployment` (not_cos.go, lines 67-69). -/
def notCoreOS_RemovePendingDeployment : Option GoError × List HostCall :=
  (some ErrNotCoreosVariant, [])

/-- Stub `RunRpmOstree` (not_cos.go, lines 71-73); the `nil` byte slice
result is the empty string. -/
def notCoreOS_RunRpmOstree (_noun : String) (_args : List String) :
    (String × Option GoError) × List HostCall :=
  (("", some ErrNotCoreosVariant), [])

/-!  ### Concrete test fixtures  -/

/-- A booted deployment whose custom origin was written by a rebase of
image `quay.io/os@sha256:aa`. -/
def depBooted : RpmOstreeDeployment :=
  ⟨"mc-1", "rhcos", 1, "csum1", "47.1", 100, true, "origin1",
   ["pivot://quay.io/os@sha256:aa"]⟩

/-- A non-booted deployment preceding `depBooted` in the status list. -/
def depOther : RpmOstreeDeployment :=
  ⟨"mc-0", "rhcos", 0, "csum0", "47.0", 99, false, "origin0", []⟩

/-- Parsed status with one booted entry, preceded by a non-booted one. -/
def stParsed : rpmOstreeState := ⟨[depOther, depBooted]⟩

/-- Parsed status with no booted entry. -/
def stNoBoot : rpmOstreeState := ⟨[depOther]⟩

/-- Environment: status query and parse succeed on `stParsed`. -/
def envBooted : Env :=
  ⟨fun n _ => if n = "status" then ("ST", none) else ("", none),
   fun _ _ => ("", none),
   fun _ => .error ⟨"inspect failed"⟩,
   fun _ => .error ⟨"podman failed"⟩,
   fun s => if s = "ST" then .ok stParsed else .error ⟨"bad json"⟩⟩

/-- Environment: status query succeeds, parse yields no booted entry. -/
def envNoBoot : Env :=
  ⟨fun _ _ => ("ST", none),
   fun _ _ => ("", none),
   fun _ => .error ⟨"inspect failed"⟩,
   fun _ => .error ⟨"podman failed"⟩,
   fun _ => .ok stNoBoot⟩

/-- Environment: the status query itself fails. -/
def envStatusErr : Env :=
  ⟨fun _ _ => ("", some ⟨"status boom"⟩),
   fun _ _ => ("", none),
   fun _ => .error ⟨"inspect failed"⟩,
   fun _ => .error ⟨"podman failed"⟩,
   fun _ => .error ⟨"bad json"⟩⟩

/-- Environment: booted deployment found, but both image inspections
fail. -/
def envInspectErr : Env :=
  ⟨fun _ _ => ("ST", none),
   fun _ _ => ("", none),
   fun _ => .error ⟨"inspect failed"⟩,
   fun _ => .error ⟨"podman exploded"⟩,
   fun _ => .ok stParsed⟩

/-- Environment: image inspection supplies the commit-checksum label, so
`Rebase` reaches the rebase invocation directly. -/
def envLabel : Env :=
  ⟨fun _ _ => ("ST", none),
   fun _ _ => ("", none),
   fun _ => .ok ⟨[("com.coreos.ostree-commit", "abc123"), ("version", "47.2")]⟩,
   fun _ => .error ⟨"podman failed"⟩,
   fun _ => .ok stParsed⟩

/-- Environment: no commit label; the local repository exposes exactly one
reference `myref`, which `ostree rev-parse` (the 4-argument call) resolves
to `deadbeef`. -/
def envRepoOne : Env :=
  ⟨fun _ _ => ("ST", none),
   fun _ a => if a.length = 4 then ("deadbeef\n", none) else ("myref\n", none),
   fun _ => .ok ⟨[]⟩,
   fun _ => .error ⟨"podman failed"⟩,
   fun _ => .ok stParsed⟩

/-- Environment: no commit label; the reference listing prints two
references. -/
def envRepoTwo : Env :=
  ⟨fun _ _ => ("ST", none),
   fun _ _ => ("r1\nr2", none),
   fun _ => .ok ⟨[]⟩,
   fun _ => .error ⟨"podman failed"⟩,
   fun _ => .ok stParsed⟩

/-- Environment: no commit label; the reference listing prints only
whitespace (an empty repository), and `ostree rev-parse` (the 4-argument
call) nevertheless succeeds with `cafe`. -/
def envRepoEmpty : Env :=
  ⟨fun _ _ => ("ST", none),
   fun _ a => if a.length = 4 then ("cafe", none) else (" \n ", none),
   fun _ => .ok ⟨[]⟩,
   fun _ => .error ⟨"podman failed"⟩,
   fun _ => .ok stParsed⟩

/-- A booted deployment with an empty custom-origin list. -/
def depBare : RpmOstreeDeployment :=
  ⟨"mc-2", "rhcos", 2, "csum2", "47.2", 101, true, "origin2", []⟩

/-- A booted deployment whose custom origin does not carry the
`pivot://` scheme tag. -/
def depCustom : RpmOstreeDeployment :=
  ⟨"mc-3", "rhcos", 3, "csum3", "47.3", 102, true, "origin3",
   ["local-build", "hand rolled"]⟩

/-- Environment whose booted deployment is `depBare`. -/
def envBare : Env :=
  ⟨fun _ _ => ("ST", none),
   fun _ _ => ("", none),
   fun _ => .error ⟨"inspect failed"⟩,
   fun _ => .error ⟨"podman failed"⟩,
   fun _ => .ok ⟨[depBare]⟩⟩

/-- Environment whose booted deployment is `depCustom`. -/
def envCustom : Env :=
  ⟨fun _ _ => ("ST", none),
   fun _ _ => ("", none),
   fun _ => .error ⟨"inspect failed"⟩,
   fun _ => .error ⟨"podman failed"⟩,
   fun _ => .ok ⟨[depCustom]⟩⟩

/-- A commander whose kernel-argument listing is `bar=1 baz=2`. -/
def cmdrKargs : Commander := fun _ _ => ("bar=1 baz=2", none)

/-- A commander whose kernel-argument listing contains a quoted space. -/
def cmdrQuoted : Commander := fun _ _ => ("root=/dev/sda opts=\"a b\"", none)

/-- A commander answering every invocation with empty output, no error. -/
def cmdrEmpty : Commander := fun _ _ => ("", none)

/-!  ### Quick sanity examples (the doc example of `quoteSpaceSplit`)  -/

example : quoteSpaceSplit "boo=bar=\"YIPPIE KA YAY\" baz foo" =
    ["boo=bar=\"YIPPIE KA YAY\"", "baz", "foo"] := by decide

example : goSplitNewline "" = [""] := by decide

example : goTrimSpace "  \n " = "" := by decide

example : quoteSpaceSplitSpec "a=1 b=\"x y\"" = ["a=1", "b=\"x y\""] := by decide

example :
    SetKernelArgs cmdrKargs [⟨kargRemove, "foo"⟩] =
      (("", none), [.rpmOstree "kargs" []]) := by decide

example :
    SetKernelArgs cmdrKargs [⟨kargAdd, "quux"⟩] =
      (("bar=1 baz=2", none),
       [.rpmOstree "kargs" ["--append=quux"]]) := by decide

example :
    SetKernelArgs cmdrKargs [⟨kargRemove, "bar"⟩] =
      (("bar=1 baz=2", none),
       [.rpmOstree "kargs" [], .rpmOstree "kargs" ["--delete=bar"]]) := by decide

example :
    Rebase envLabel "img" "/ostree" =
      ((true, some ⟨"rpm-ostree command is malformed, not enough arguments"⟩),
       [.rpmOstree "status" ["--json"], .imageInspect "img",
        .rpmOstree "rebase"
          ["--experimental", "/ostree/srv/repo:abc123",
           "--custom-origin-url", "pivot://img",
           "--custom-origin-description", "Managed by machine-config-operator"],
        .podmanRmi "img"]) := by decide

example :
    resolveViaRepo envRepoEmpty.getOut "/r" =
      (.ok "cafe",
       [.getOut "ostree" ["refs", "--repo", "/r"],
        .getOut "ostree" ["rev-parse", "--repo", "/r", ""]]) := rfl

example :
    resolveViaRepo envRepoOne.getOut "/r" =
      (.ok "deadbeef",
       [.getOut "ostree" ["refs", "--repo", "/r"],
        .getOut "ostree" ["rev-parse", "--repo", "/r", "myref"]]) := rfl

example :
    resolveViaRepo envRepoTwo.getOut "/r" =
      (.error ⟨"multiple refs found in repo"⟩,
       [.getOut "ostree" ["refs", "--repo", "/r"]]) := rfl

example :
    GetBootedDeployment envBooted = (.ok depBooted, [.rpmOstree "status" ["--json"]]) := rfl

example :
    GetBootedDeployment envNoBoot =
      (.error ⟨"not currently booted in a deployment"⟩,
       [.rpmOstree "status" ["--json"]]) := rfl

example :
    GetBootedOSImageURL envBooted =
      (.ok ("quay.io/os@sha256:aa", "47.1"), [.rpmOstree "status" ["--json"]]) := rfl

/-!  ### Helper lemmas  -/

theorem findBooted_first (l₁ l₂ : List RpmOstreeDeployment)
    (d : RpmOstreeDeployment) (h₁ : ∀ x ∈ l₁, x.Booted = false)
    (hd : d.Booted = true) : findBooted (l₁ ++ d :: l₂) = some d := by
  induction l₁ with
  | nil => simp [findBooted, hd]
  | cons a as ih =>
    have ha : a.Booted = false := h₁ a (by simp)
    simp only [List.cons_append, findBooted, ha, Bool.false_eq_true, if_false]
    exact ih fun x hx => h₁ x (by simp [hx])

theorem findBooted_none (l : List RpmOstreeDeployment)
    (h : ∀ x ∈ l, x.Booted = false) : findBooted l = none := by
  induction l with
  | nil => rfl
  | cons a as ih =>
    have ha : a.Booted = false := h a (by simp)
    simp only [findBooted, ha, Bool.false_eq_true, if_false]
    exact ih fun x hx => h x (by simp [hx])

theorem GetBootedDeployment_reduce (env : Env) (out : String)
    (st : rpmOstreeState) (hq : env.cmdr "status" ["--json"] = (out, none))
    (hp : env.parseStatus out = .ok st) :
    GetBootedDeployment env =
      ((match findBooted st.Deployments with
        | some d => .ok d
        | none => .error ⟨"not currently booted in a deployment"⟩),
       [.rpmOstree "status" ["--json"]]) := by
  unfold GetBootedDeployment
  rw [hq]
  simp only [hp]
  match hfb : findBooted st.Deployments with
  | some d => simp [hfb]
  | none => simp [hfb]

/-- Claim C2: for every deployment-status query result, the first
deployment with `booted = true` is returned when one exists; with no
booted entry the call fails with exactly the error
`not currently booted in a deployment` and no deployment is produced. -/
theorem C2_getBootedDeployment (env : Env) (out : String)
    (st : rpmOstreeState) (hq : env.cmdr "status" ["--json"] = (out, none))
    (hp : env.parseStatus out = .ok st) :
    (∀ l₁ d l₂, st.Deployments = l₁ ++ d :: l₂ →
      (∀ x ∈ l₁, x.Booted = false) → d.Booted = true →
      GetBootedDeployment env = (.ok d, [.rpmOstree "status" ["--json"]])) ∧
    ((∀ x ∈ st.Deployments, x.Booted = false) →
      GetBootedDeployment env =
        (.error ⟨"not currently booted in a deployment"⟩,
         [.rpmOstree "status" ["--json"]])) := by
  refine ⟨?_, ?_⟩
  · intro l₁ d l₂ hsplit h₁ hd
    rw [GetBootedDeployment_reduce env out st hq hp, hsplit,
      findBooted_first l₁ l₂ d h₁ hd]
  · intro hnone
    rw [GetBootedDeployment_reduce env out st hq hp, findBooted_none _ hnone]

/-- Claim C2 witness: instantiated on `envBooted` (first booted entry is
`depBooted`, preceded by the non-booted `depOther`) and `envNoBoot`. -/
theorem C2_getBootedDeployment_witness :
    GetBootedDeployment envBooted =
      (.ok depBooted, [.rpmOstree "status" ["--json"]]) ∧
    GetBootedDeployment envNoBoot =
      (.error ⟨"not currently booted in a deployment"⟩,
       [.rpmOstree "status" ["--json"]]) := by
  refine ⟨?_, ?_⟩
  · exact (C2_getBootedDeployment envBooted "ST" stParsed rfl rfl).1
      [depOther] depBooted [] rfl (by decide) (by decide)
  · exact (C2_getBootedDeployment envNoBoot "ST" stNoBoot rfl rfl).2
      (by decide)

/-- Claim C8: every mutating stub operation (`Rebase`, `SetKernelArgs`,
`RemovePendingDeployment`, `RunRpmOstree`) returns the one sentinel error
`ErrNotCoreosVariant`, none of them performs a host call, and the stub
`GetBootedDeployment` returns the zero-value deployment with no error. -/
theorem C8_notCoreOS_stub (a b noun : String) (args : List KernelArgument)
    (cargs : List String) :
    notCoreOS_Rebase a b = ((false, some ErrNotCoreosVariant), []) ∧
    notCoreOS_SetKernelArgs args =
      (("unsupported", some ErrNotCoreosVariant), []) ∧
    notCoreOS_RemovePendingDeployment = (some ErrNotCoreosVariant, []) ∧
    notCoreOS_RunRpmOstree noun cargs = (("", some ErrNotCoreosVariant), []) ∧
    notCoreOS_GetBootedDeployment = (.ok zeroDeployment, []) :=
  ⟨rfl, rfl, rfl, rfl, rfl⟩

/-!  ### Lemmas on newline splitting and trimming  -/

theorem splitChars_no_newline (cs : List Char) (acc : List Char)
    (h : '\n' ∉ cs) : splitChars cs acc = [acc.reverse ++ cs] := by
  induction cs generalizing acc with
  | nil => simp [splitChars]
  | cons c cs ih =>
    have hc : ¬ c = '\n' := fun e => h (by simp [e])
    rw [splitChars, if_neg hc, ih _ (fun hm => h (List.mem_cons_of_mem _ hm))]
    simp

theorem splitChars_ne_nil (cs acc : List Char) : splitChars cs acc ≠ [] := by
  induction cs generalizing acc with
  | nil => simp [splitChars]
  | cons c cs ih =>
    rw [splitChars]
    by_cases hc : c = '\n'
    · simp [hc]
    · simp only [if_neg hc]
      exact ih _

theorem splitChars_len_two (cs acc : List Char) (h : '\n' ∈ cs) :
    2 ≤ (splitChars cs acc).length := by
  induction cs generalizing acc with
  | nil => cases h
  | cons c cs ih =>
    rw [splitChars]
    by_cases hc : c = '\n'
    · rw [if_pos hc]
      have h1 : 0 < (splitChars cs []).length :=
        List.length_pos.mpr (splitChars_ne_nil cs [])
      simp only [List.length_cons]
      omega
    · rw [if_neg hc]
      rcases List.mem_cons.mp h with h' | h'
      · exact absurd h'.symm hc
      · exact ih _ h'

theorem goSplitNewline_single (r : String) (h : '\n' ∉ r.data) :
    goSplitNewline r = [r] := by
  unfold goSplitNewline
  rw [splitChars_no_newline _ _ h]
  rfl

theorem goSplitNewline_len_two (r : String) (h : '\n' ∈ r.data) :
    2 ≤ (goSplitNewline r).length := by
  unfold goSplitNewline
  rw [List.length_map]
  exact splitChars_len_two _ _ h

theorem goTrimSpace_all (s : String) (h : ∀ c ∈ s.data, isGoSpace c = true) :
    goTrimSpace s = "" := by
  unfold goTrimSpace
  rw [List.dropWhile_eq_nil_iff.mpr h]
  rfl

/-- Claim C10: when the reference-listing command succeeds with
whitespace-only output, splitting the trimmed (empty) output on newlines
yields exactly `[""]`, so the fallback takes the single-reference branch,
invokes `ostree rev-parse` with the empty reference name, and its result —
not the `No refs found in repo` error — determines the outcome. -/
theorem C10_whitespace_listing
    (getOut : String → List String → String × Option GoError)
    (repo s : String)
    (h : getOut "ostree" ["refs", "--repo", repo] = (s, none))
    (hs : ∀ c ∈ s.data, isGoSpace c = true) :
    goSplitNewline (goTrimSpace s) = [""] ∧
    ∀ o e, getOut "ostree" ["rev-parse", "--repo", repo, ""] = (o, e) →
      resolveViaRepo getOut repo =
        ((match e with
          | some err => Except.error err
          | none => Except.ok (goTrimSpace o)),
         [.getOut "ostree" ["refs", "--repo", repo],
          .getOut "ostree" ["rev-parse", "--repo", repo, ""]]) := by
  have htrim : goTrimSpace s = "" := goTrimSpace_all s hs
  have hsplit : goSplitNewline (goTrimSpace s) = [""] := by rw [htrim]; rfl
  refine ⟨hsplit, ?_⟩
  intro o e h2
  unfold resolveViaRepo
  rw [h]
  simp only [hsplit, List.length_cons, List.length_nil, if_pos rfl,
    List.headD_cons, h2]
  cases e <;> rfl

/-- Claim C10 witness: instantiated on `envRepoEmpty.getOut` (a
whitespace-only listing ` \n ` and a rev-parse answering `cafe`). -/
theorem C10_whitespace_listing_witness :
    goSplitNewline (goTrimSpace " \n ") = [""] ∧
    resolveViaRepo envRepoEmpty.getOut "/r" =
      (Except.ok (goTrimSpace "cafe"),
       [.getOut "ostree" ["refs", "--repo", "/r"],
        .getOut "ostree" ["rev-parse", "--repo", "/r", ""]]) := by
  have h := C10_whitespace_listing envRepoEmpty.getOut "/r" " \n " rfl
    (by decide)
  exact ⟨h.1, h.2 "cafe" none rfl⟩

/-!  ### Reduction lemmas for the repository fallback and Rebase  -/

theorem resolveViaRepo_single
    (getOut : String → List String → String × Option GoError)
    (repo refsOut r csumOut : String)
    (h : getOut "ostree" ["refs", "--repo", repo] = (refsOut, none))
    (hr : goTrimSpace refsOut = r) (hnl : '\n' ∉ r.data)
    (h2 : getOut "ostree" ["rev-parse", "--repo", repo, r] = (csumOut, none)) :
    resolveViaRepo getOut repo =
      (Except.ok (goTrimSpace csumOut),
       [.getOut "ostree" ["refs", "--repo", repo],
        .getOut "ostree" ["rev-parse", "--repo", repo, r]]) := by
  unfold resolveViaRepo
  rw [h]
  simp only [hr, goSplitNewline_single r hnl, List.length_cons,
    List.length_nil, if_pos rfl, List.headD_cons, h2]
  rw [if_pos trivial]

theorem resolveViaRepo_multi
    (getOut : String → List String → String × Option GoError)
    (repo refsOut r : String)
    (h : getOut "ostree" ["refs", "--repo", repo] = (refsOut, none))
    (hr : goTrimSpace refsOut = r) (hnl : '\n' ∈ r.data) :
    resolveViaRepo getOut repo =
      (Except.error ⟨"multiple refs found in repo"⟩,
       [.getOut "ostree" ["refs", "--repo", repo]]) := by
  have hlen : 2 ≤ (goSplitNewline r).length := goSplitNewline_len_two r hnl
  unfold resolveViaRepo
  rw [h]
  simp only [hr]
  rw [if_neg (by omega), if_pos (by omega)]

theorem resolveViaRepo_trace
    (getOut : String → List String → String × Option GoError) (repo : String) :
    ∀ c ∈ (resolveViaRepo getOut repo).2, ∃ p a, c = HostCall.getOut p a := by
  unfold resolveViaRepo
  rcases hres : getOut "ostree" ["refs", "--repo", repo] with ⟨refText, e⟩
  cases e with
  | some err =>
    intro c hc
    simp only [List.mem_singleton] at hc
    exact ⟨_, _, hc⟩
  | none =>
    by_cases h1 : (goSplitNewline (goTrimSpace refText)).length = 1
    · simp only [if_pos h1]
      rcases hrev : getOut "ostree"
        ["rev-parse", "--repo", repo,
         (goSplitNewline (goTrimSpace refText)).headD ""] with ⟨csumText, e2⟩
      cases e2 with
      | some err =>
        intro c hc
        rcases List.mem_cons.mp hc with hc | hc
        · exact ⟨_, _, hc⟩
        · exact ⟨_, _, List.mem_singleton.mp hc⟩
      | none =>
        intro c hc
        rcases List.mem_cons.mp hc with hc | hc
        · exact ⟨_, _, hc⟩
        · exact ⟨_, _, List.mem_singleton.mp hc⟩
    · simp only [if_neg h1]
      by_cases h2 : (goSplitNewline (goTrimSpace refText)).length > 1
      · simp only [if_pos h2]
        intro c hc
        exact ⟨_, _, List.mem_singleton.mp hc⟩
      · simp only [if_neg h2]
        intro c hc
        exact ⟨_, _, List.mem_singleton.mp hc⟩

theorem inspectChecksum_trace (env : Env) (u : String) :
    ∀ c ∈ (inspectChecksum env u).2,
      c = HostCall.imageInspect u ∨ c = HostCall.podmanInspect u := by
  unfold inspectChecksum
  cases env.imgInspect u with
  | ok info => intro c hc; simp at hc; exact Or.inl hc
  | error e1 =>
    cases env.podInspect u with
    | error e2 => intro c hc; simpa using hc
    | ok info => intro c hc; simpa using hc

theorem Rebase_bootedErr (env : Env) (imgURL dir : String) (e : GoError)
    (tr : List HostCall) (h : GetBootedDeployment env = (.error e, tr)) :
    Rebase env imgURL dir = ((false, some e), tr) := by
  unfold Rebase
  rw [h]

theorem Rebase_inspectErr (env : Env) (imgURL dir out : String)
    (st : rpmOstreeState) (d : RpmOstreeDeployment) (e : GoError)
    (trI : List HostCall)
    (hq : env.cmdr "status" ["--json"] = (out, none))
    (hp : env.parseStatus out = .ok st)
    (hfb : findBooted st.Deployments = some d)
    (hI : inspectChecksum env imgURL = (.error e, trI)) :
    Rebase env imgURL dir =
      ((false, some e), [.rpmOstree "status" ["--json"]] ++ trI) := by
  have hb := GetBootedDeployment_reduce env out st hq hp
  rw [hfb] at hb
  unfold Rebase
  rw [hb, hI]

theorem Rebase_resolveErr (env : Env) (imgURL dir out : String)
    (st : rpmOstreeState) (d : RpmOstreeDeployment) (v : String)
    (trI : List HostCall) (e : GoError) (tr2 : List HostCall)
    (hq : env.cmdr "status" ["--json"] = (out, none))
    (hp : env.parseStatus out = .ok st)
    (hfb : findBooted st.Deployments = some d)
    (hI : inspectChecksum env imgURL = (.ok ("", v), trI))
    (hres : resolveViaRepo env.getOut (dir ++ "/srv/repo") = (.error e, tr2)) :
    Rebase env imgURL dir =
      ((false, some e),
       [.rpmOstree "status" ["--json"]] ++ trI ++ tr2 ++ [.podmanRmi imgURL]) := by
  have hb := GetBootedDeployment_reduce env out st hq hp
  rw [hfb] at hb
  unfold Rebase
  rw [hb, hI]
  dsimp only
  rw [if_pos rfl, hres]

theorem Rebase_labelOk (env : Env) (imgURL dir out : String)
    (st : rpmOstreeState) (d : RpmOstreeDeployment) (csum v : String)
    (trI : List HostCall)
    (hq : env.cmdr "status" ["--json"] = (out, none))
    (hp : env.parseStatus out = .ok st)
    (hfb : findBooted st.Deployments = some d)
    (hI : inspectChecksum env imgURL = (.ok (csum, v), trI))
    (hcs : csum ≠ "") :
    Rebase env imgURL dir =
      ((true, some ⟨"rpm-ostree command is malformed, not enough arguments"⟩),
       [.rpmOstree "status" ["--json"]] ++ trI ++
         [.rpmOstree "rebase"
            (rebaseArgs (dir ++ "/srv/repo") csum (rebaseCustomURL imgURL)).tail] ++
         [.podmanRmi imgURL]) := by
  have hb := GetBootedDeployment_reduce env out st hq hp
  rw [hfb] at hb
  unfold Rebase
  rw [hb, hI]
  dsimp only
  rw [if_neg hcs]
  dsimp only [rebaseArgs, List.headD_cons, List.tail_cons, runRpmOstree]
  norm_num

theorem Rebase_repoOk (env : Env) (imgURL dir out : String)
    (st : rpmOstreeState) (d : RpmOstreeDeployment) (v csum : String)
    (trI tr2 : List HostCall)
    (hq : env.cmdr "status" ["--json"] = (out, none))
    (hp : env.parseStatus out = .ok st)
    (hfb : findBooted st.Deployments = some d)
    (hI : inspectChecksum env imgURL = (.ok ("", v), trI))
    (hres : resolveViaRepo env.getOut (dir ++ "/srv/repo") = (.ok csum, tr2)) :
    Rebase env imgURL dir =
      ((true, some ⟨"rpm-ostree command is malformed, not enough arguments"⟩),
       [.rpmOstree "status" ["--json"]] ++ trI ++ tr2 ++
         [.rpmOstree "rebase"
            (rebaseArgs (dir ++ "/srv/repo") csum (rebaseCustomURL imgURL)).tail] ++
         [.podmanRmi imgURL]) := by
  have hb := GetBootedDeployment_reduce env out st hq hp
  rw [hfb] at hb
  unfold Rebase
  rw [hb, hI]
  dsimp only
  rw [if_pos rfl, hres]
  dsimp only [rebaseArgs, List.headD_cons, List.tail_cons, runRpmOstree]
  norm_num

/-- Claim C1 (amended): `Rebase` reports `changed = false` and propagates
the error verbatim whenever deployment lookup, image inspection (with its
podman fallback), or checksum resolution fails; once a checksum is
resolved it reports `changed = true` unconditionally together with the
error (if any) of the rebase command invocation — which in this code is
always the malformed-command error, since the invocation carries six
trailing arguments — so `true` is returned even when the rebase command
fails and is not equivalent to successful completion. -/
theorem C1_rebase_result (env : Env) (imgURL dir : String) :
    (∀ e tr, GetBootedDeployment env = (.error e, tr) →
      Rebase env imgURL dir = ((false, some e), tr)) ∧
    (∀ out st d e trI,
      env.cmdr "status" ["--json"] = (out, none) →
      env.parseStatus out = .ok st →
      findBooted st.Deployments = some d →
      inspectChecksum env imgURL = (.error e, trI) →
      Rebase env imgURL dir =
        ((false, some e), [.rpmOstree "status" ["--json"]] ++ trI)) ∧
    (∀ out st d v trI e tr2,
      env.cmdr "status" ["--json"] = (out, none) →
      env.parseStatus out = .ok st →
      findBooted st.Deployments = some d →
      inspectChecksum env imgURL = (.ok ("", v), trI) →
      resolveViaRepo env.getOut (dir ++ "/srv/repo") = (.error e, tr2) →
      Rebase env imgURL dir =
        ((false, some e),
         [.rpmOstree "status" ["--json"]] ++ trI ++ tr2 ++
           [.podmanRmi imgURL])) ∧
    (∀ out st d csum v trI,
      env.cmdr "status" ["--json"] = (out, none) →
      env.parseStatus out = .ok st →
      findBooted st.Deployments = some d →
      inspectChecksum env imgURL = (.ok (csum, v), trI) →
      csum ≠ "" →
      Rebase env imgURL dir =
        ((true,
          some ⟨"rpm-ostree command is malformed, not enough arguments"⟩),
         [.rpmOstree "status" ["--json"]] ++ trI ++
           [.rpmOstree "rebase"
              (rebaseArgs (dir ++ "/srv/repo") csum
                (rebaseCustomURL imgURL)).tail] ++
           [.podmanRmi imgURL])) ∧
    (∀ out st d v trI csum tr2,
      env.cmdr "status" ["--json"] = (out, none) →
      env.parseStatus out = .ok st →
      findBooted st.Deployments = some d →
      inspectChecksum env imgURL = (.ok ("", v), trI) →
      resolveViaRepo env.getOut (dir ++ "/srv/repo") = (.ok csum, tr2) →
      Rebase env imgURL dir =
        ((true,
          some ⟨"rpm-ostree command is malformed, not enough arguments"⟩),
         [.rpmOstree "status" ["--json"]] ++ trI ++ tr2 ++
           [.rpmOstree "rebase"
              (rebaseArgs (dir ++ "/srv/repo") csum
                (rebaseCustomURL imgURL)).tail] ++
           [.podmanRmi imgURL])) := by
  refine ⟨?_, ?_, ?_, ?_, ?_⟩
  · intro e tr h
    exact Rebase_bootedErr env imgURL dir e tr h
  · intro out st d e trI hq hp hfb hI
    exact Rebase_inspectErr env imgURL dir out st d e trI hq hp hfb hI
  · intro out st d v trI e tr2 hq hp hfb hI hres
    exact Rebase_resolveErr env imgURL dir out st d v trI e tr2 hq hp hfb hI hres
  · intro out st d csum v trI hq hp hfb hI hcs
    exact Rebase_labelOk env imgURL dir out st d csum v trI hq hp hfb hI hcs
  · intro out st d v trI csum tr2 hq hp hfb hI hres
    exact Rebase_repoOk env imgURL dir out st d v csum trI tr2 hq hp hfb hI hres

/-- Claim C1 counterexample: on `envLabel` resolution succeeds, the rebase
command invocation fails (malformed-command guard), and `Rebase`
nevertheless returns `changed = true` together with that error — refuting
"returns true if and only if it completes successfully". -/
theorem C1_rebase_counterexample :
    (Rebase envLabel "img" "/ostree").1.1 = true ∧
    (Rebase envLabel "img" "/ostree").1.2 =
      some ⟨"rpm-ostree command is malformed, not enough arguments"⟩ :=
  ⟨rfl, rfl⟩

/-- Claim C1 witness: all five branches instantiated on concrete
environments. -/
theorem C1_rebase_result_witness :
    Rebase envStatusErr "img" "/d" =
      ((false, some ⟨"status boom"⟩), [.rpmOstree "status" ["--json"]]) ∧
    Rebase envInspectErr "img" "/d" =
      ((false, some ⟨"podman exploded"⟩),
       [.rpmOstree "status" ["--json"]] ++
         [.imageInspect "img", .podmanInspect "img"]) ∧
    Rebase envRepoTwo "img" "/d" =
      ((false, some ⟨"multiple refs found in repo"⟩),
       [.rpmOstree "status" ["--json"]] ++ [.imageInspect "img"] ++
         [.getOut "ostree" ["refs", "--repo", "/d" ++ "/srv/repo"]] ++
         [.podmanRmi "img"]) ∧
    Rebase envLabel "img" "/d" =
      ((true, some ⟨"rpm-ostree command is malformed, not enough arguments"⟩),
       [.rpmOstree "status" ["--json"]] ++ [.imageInspect "img"] ++
         [.rpmOstree "rebase"
            (rebaseArgs ("/d" ++ "/srv/repo") "abc123"
              (rebaseCustomURL "img")).tail] ++
         [.podmanRmi "img"]) ∧
    Rebase envRepoOne "img" "/d" =
      ((true, some ⟨"rpm-ostree command is malformed, not enough arguments"⟩),
       [.rpmOstree "status" ["--json"]] ++ [.imageInspect "img"] ++
         [.getOut "ostree" ["refs", "--repo", "/d" ++ "/srv/repo"],
          .getOut "ostree" ["rev-parse", "--repo", "/d" ++ "/srv/repo", "myref"]] ++
         [.rpmOstree "rebase"
            (rebaseArgs ("/d" ++ "/srv/repo") "deadbeef"
              (rebaseCustomURL "img")).tail] ++
         [.podmanRmi "img"]) := by
  refine ⟨?_, ?_, ?_, ?_, ?_⟩
  · exact (C1_rebase_result envStatusErr "img" "/d").1 ⟨"status boom"⟩
      [.rpmOstree "status" ["--json"]] rfl
  · exact (C1_rebase_result envInspectErr "img" "/d").2.1 "ST" stParsed
      depBooted ⟨"podman exploded"⟩ [.imageInspect "img", .podmanInspect "img"]
      rfl rfl rfl rfl
  · exact (C1_rebase_result envRepoTwo "img" "/d").2.2.1 "ST" stParsed
      depBooted "" [.imageInspect "img"] ⟨"multiple refs found in repo"⟩
      [.getOut "ostree" ["refs", "--repo", "/d" ++ "/srv/repo"]]
      rfl rfl rfl rfl rfl
  · exact (C1_rebase_result envLabel "img" "/d").2.2.2.1 "ST" stParsed
      depBooted "abc123" "47.2" [.imageInspect "img"] rfl rfl rfl rfl
      (by decide)
  · exact (C1_rebase_result envRepoOne "img" "/d").2.2.2.2 "ST" stParsed
      depBooted "" [.imageInspect "img"] "deadbeef"
      [.getOut "ostree" ["refs", "--repo", "/d" ++ "/srv/repo"],
       .getOut "ostree" ["rev-parse", "--repo", "/d" ++ "/srv/repo", "myref"]]
      rfl rfl rfl rfl rfl

/-- Claim C5 (amended): with no image-supplied checksum, a reference
listing that trims to a single newline-free nonempty name resolves
successfully to the trimmed `ostree rev-parse` output of that name; a
listing whose trimmed output still contains a newline (two or more
references) fails with `multiple refs found in repo`, in which case
`Rebase` reports the failure and never issues the rebase invocation.  A
whitespace-only (zero-reference) listing is not failed directly: it is
treated as the single empty reference name (see the C10 theorem and the C5
counterexample). -/
theorem C5_local_repo_fallback
    (getOut : String → List String → String × Option GoError)
    (repo refsOut : String)
    (h : getOut "ostree" ["refs", "--repo", repo] = (refsOut, none)) :
    (∀ r csumOut, goTrimSpace refsOut = r → r ≠ "" → '\n' ∉ r.data →
      getOut "ostree" ["rev-parse", "--repo", repo, r] = (csumOut, none) →
      resolveViaRepo getOut repo =
        (.ok (goTrimSpace csumOut),
         [.getOut "ostree" ["refs", "--repo", repo],
          .getOut "ostree" ["rev-parse", "--repo", repo, r]])) ∧
    (∀ r, goTrimSpace refsOut = r → '\n' ∈ r.data →
      resolveViaRepo getOut repo =
        (.error ⟨"multiple refs found in repo"⟩,
         [.getOut "ostree" ["refs", "--repo", repo]])) ∧
    (∀ env imgURL dir out st d v trI e tr2,
      env.cmdr "status" ["--json"] = (out, none) →
      env.parseStatus out = Except.ok st →
      findBooted st.Deployments = some d →
      inspectChecksum env imgURL = (.ok ("", v), trI) →
      resolveViaRepo env.getOut (dir ++ "/srv/repo") = (.error e, tr2) →
      Rebase env imgURL dir =
        ((false, some e),
         [.rpmOstree "status" ["--json"]] ++ trI ++ tr2 ++
           [.podmanRmi imgURL]) ∧
      ∀ as, HostCall.rpmOstree "rebase" as ∉ (Rebase env imgURL dir).2) := by
  refine ⟨?_, ?_, ?_⟩
  · intro r csumOut hr _hne hnl h2
    exact resolveViaRepo_single getOut repo refsOut r csumOut h hr hnl h2
  · intro r hr hnl
    exact resolveViaRepo_multi getOut repo refsOut r h hr hnl
  · intro env imgURL dir out st d v trI e tr2 hq hp hfb hI hres
    have heq := Rebase_resolveErr env imgURL dir out st d v trI e tr2
      hq hp hfb hI hres
    refine ⟨heq, ?_⟩
    intro as hmem
    rw [heq] at hmem
    simp only [List.mem_append, List.mem_singleton, List.mem_cons,
      List.not_mem_nil, or_false] at hmem
    rcases hmem with ((hm | hm) | hm) | hm
    · exact absurd (HostCall.rpmOstree.injEq .. ▸ hm) (by simp)
    · have htr : (inspectChecksum env imgURL).2 = trI := by rw [hI]
      have := inspectChecksum_trace env imgURL _ (htr ▸ hm)
      rcases this with hc | hc <;> exact HostCall.noConfusion hc
    · have htr : (resolveViaRepo env.getOut (dir ++ "/srv/repo")).2 = tr2 := by
        rw [hres]
      have := resolveViaRepo_trace env.getOut (dir ++ "/srv/repo") _ (htr ▸ hm)
      rcases this with ⟨p, a, hc⟩
      exact HostCall.noConfusion hc
    · exact HostCall.noConfusion hm

/-- Claim C5 witness: single-reference success on `envRepoOne`,
multi-reference failure on `envRepoTwo`, and the `Rebase`-level failure
with no rebase invocation on `envRepoTwo`. -/
theorem C5_local_repo_fallback_witness :
    resolveViaRepo envRepoOne.getOut "/r" =
      (.ok (goTrimSpace "deadbeef\n"),
       [.getOut "ostree" ["refs", "--repo", "/r"],
        .getOut "ostree" ["rev-parse", "--repo", "/r", "myref"]]) ∧
    resolveViaRepo envRepoTwo.getOut "/r" =
      (.error ⟨"multiple refs found in repo"⟩,
       [.getOut "ostree" ["refs", "--repo", "/r"]]) ∧
    Rebase envRepoTwo "img" "/d" =
      ((false, some ⟨"multiple refs found in repo"⟩),
       [.rpmOstree "status" ["--json"]] ++ [.imageInspect "img"] ++
         [.getOut "ostree" ["refs", "--repo", "/d" ++ "/srv/repo"]] ++
         [.podmanRmi "img"]) ∧
    HostCall.rpmOstree "rebase" [] ∉ (Rebase envRepoTwo "img" "/d").2 := by
  have h3 := (C5_local_repo_fallback envRepoTwo.getOut ("/d" ++ "/srv/repo")
      "r1\nr2" rfl).2.2 envRepoTwo "img" "/d" "ST" stParsed depBooted ""
      [.imageInspect "img"] ⟨"multiple refs found in repo"⟩
      [.getOut "ostree" ["refs", "--repo", "/d" ++ "/srv/repo"]]
      rfl rfl rfl rfl rfl
  exact ⟨(C5_local_repo_fallback envRepoOne.getOut "/r" "myref\n" rfl).1
      "myref" "deadbeef\n" rfl (by decide) (by decide) rfl,
    (C5_local_repo_fallback envRepoTwo.getOut "/r" "r1\nr2" rfl).2.1
      "r1\nr2" rfl (by decide),
    h3.1, h3.2 []⟩

/-- Claim C5 counterexample: a whitespace-only listing — zero references —
does not make resolution fail: on `envRepoEmpty` the fallback resolves the
empty reference name successfully (`cafe`) and `Rebase` goes on to issue
the rebase invocation, refuting "zero references … fails with an error and
no rebase command is issued". -/
theorem C5_local_repo_fallback_counterexample :
    (" \n " : String).data.all isGoSpace = true ∧
    resolveViaRepo envRepoEmpty.getOut "/r" =
      (.ok "cafe",
       [.getOut "ostree" ["refs", "--repo", "/r"],
        .getOut "ostree" ["rev-parse", "--repo", "/r", ""]]) ∧
    Rebase envRepoEmpty "img" "/d" =
      ((true, some ⟨"rpm-ostree command is malformed, not enough arguments"⟩),
       [.rpmOstree "status" ["--json"], .imageInspect "img",
        .getOut "ostree" ["refs", "--repo", "/d/srv/repo"],
        .getOut "ostree" ["rev-parse", "--repo", "/d/srv/repo", ""],
        .rpmOstree "rebase"
          ["--experimental", "/d/srv/repo:cafe",
           "--custom-origin-url", "pivot://img",
           "--custom-origin-description", "Managed by machine-config-operator"],
        .podmanRmi "img"]) :=
  ⟨rfl, rfl, rfl⟩

/-- Claim C9 (amended: the rebase invocation passes six, not five,
trailing arguments): `runRpmOstree` fails with
`rpm-ostree command is malformed, not enough arguments` and executes
nothing whenever it receives more than two trailing arguments; the rebase
invocation always passes six trailing arguments, so every `Rebase` that
reaches the rebase step returns this error; and every combined
kernel-argument invocation carrying three or more queued flags fails the
same way without reaching the host tool. -/
theorem C9_malformed_guard :
    (∀ (g : String → List String → String × Option GoError) noun args,
      2 < args.length →
      runRpmOstree g noun args =
        (("", some ⟨"rpm-ostree command is malformed, not enough arguments"⟩),
         [])) ∧
    (∀ repo csum url, (rebaseArgs repo csum url).tail.length = 6) ∧
    (∀ (g : String → List String → String × Option GoError) flags,
      3 ≤ flags.length →
      runRpmOstree g "kargs" flags =
        (("", some ⟨"rpm-ostree command is malformed, not enough arguments"⟩),
         [])) ∧
    (∀ env imgURL dir out st d csum v trI,
      env.cmdr "status" ["--json"] = (out, none) →
      env.parseStatus out = Except.ok st →
      findBooted st.Deployments = some d →
      inspectChecksum env imgURL = (.ok (csum, v), trI) →
      csum ≠ "" →
      (Rebase env imgURL dir).1 =
        (true,
         some ⟨"rpm-ostree command is malformed, not enough arguments"⟩)) := by
  refine ⟨?_, ?_, ?_, ?_⟩
  · intro g noun args hlen
    unfold runRpmOstree
    rw [if_pos hlen]
  · intro repo csum url
    rfl
  · intro g flags hlen
    unfold runRpmOstree
    rw [if_pos (by omega)]
  · intro env imgURL dir out st d csum v trI hq hp hfb hI hcs
    rw [Rebase_labelOk env imgURL dir out st d csum v trI hq hp hfb hI hcs]

/-- Claim C9 counterexample: the rebase invocation carries six trailing
arguments, not five as the claim states. -/
theorem C9_malformed_guard_counterexample :
    (rebaseArgs "/r" "c" "pivot://img").tail.length = 6 ∧
    ¬ (rebaseArgs "/r" "c" "pivot://img").tail.length = 5 := by
  exact ⟨rfl, by decide⟩

/-- Claim C9 witness: the guard, the six-argument count, the blocked
three-flag kernel-argument invocation, and a full `Rebase` returning the
malformed-command error. -/
theorem C9_malformed_guard_witness :
    runRpmOstree cmdrEmpty "x" ["a", "b", "c"] =
      (("", some ⟨"rpm-ostree command is malformed, not enough arguments"⟩),
       []) ∧
    (rebaseArgs "r" "c" "u").tail.length = 6 ∧
    runRpmOstree cmdrEmpty "kargs" ["f1", "f2", "f3"] =
      (("", some ⟨"rpm-ostree command is malformed, not enough arguments"⟩),
       []) ∧
    (Rebase envLabel "img" "/d").1 =
      (true, some ⟨"rpm-ostree command is malformed, not enough arguments"⟩) :=
  ⟨C9_malformed_guard.1 cmdrEmpty "x" ["a", "b", "c"] (by decide),
   C9_malformed_guard.2.1 "r" "c" "u",
   C9_malformed_guard.2.2.1 cmdrEmpty ["f1", "f2", "f3"] (by decide),
   C9_malformed_guard.2.2.2 envLabel "img" "/d" "ST" stParsed depBooted
     "abc123" "47.2" [.imageInspect "img"] rfl rfl rfl rfl (by decide)⟩

/-!  ### Custom-origin round trip (C6)  -/

theorem isPrefixOf_self_append (l r : List Char) :
    l.isPrefixOf (l ++ r) = true := by
  induction l with
  | nil => simp [List.isPrefixOf]
  | cons c cs ih => simp [List.isPrefixOf, ih]

theorem strHasPfx_pivot (R : String) :
    strHasPfx "pivot://" ("pivot://" ++ R) = true := by
  unfold strHasPfx
  rw [String.data_append]
  exact isPrefixOf_self_append _ _

theorem drop_pivot (R : String) :
    String.mk (("pivot://" ++ R).data.drop 8) = R := by
  rw [String.data_append]
  have h8 : ("pivot://" : String).data.length = 8 := rfl
  rw [← h8, List.drop_left]

theorem GetBootedOSImageURL_reduce (env : Env) (out : String)
    (st : rpmOstreeState) (d : RpmOstreeDeployment)
    (hq : env.cmdr "status" ["--json"] = (out, none))
    (hp : env.parseStatus out = .ok st)
    (hfb : findBooted st.Deployments = some d) :
    GetBootedOSImageURL env =
      (.ok ((match d.CustomOrigin with
             | [] => ""
             | c0 :: _ =>
               if strHasPfx "pivot://" c0 then String.mk (c0.data.drop 8)
               else ""),
            d.Version),
       [.rpmOstree "status" ["--json"]]) := by
  have hb := GetBootedDeployment_reduce env out st hq hp
  rw [hfb] at hb
  unfold GetBootedOSImageURL
  rw [hb]

/-- Claim C6: the custom-origin string constructed by `Rebase` is
`pivot://` followed by the image reference; `GetBootedOSImageURL` on a
booted deployment whose first custom-origin entry is that string returns
the image reference unchanged, while a deployment with an empty
custom-origin list, or custom-origin entries that do not carry the scheme
tag, yields the empty image URL with no error. -/
theorem C6_custom_origin_roundtrip (env : Env) (out R : String)
    (st : rpmOstreeState) (d : RpmOstreeDeployment)
    (hq : env.cmdr "status" ["--json"] = (out, none))
    (hp : env.parseStatus out = .ok st)
    (hfb : findBooted st.Deployments = some d) :
    rebaseCustomURL R = "pivot://" ++ R ∧
    (∀ rest, d.CustomOrigin = rebaseCustomURL R :: rest →
      GetBootedOSImageURL env =
        (.ok (R, d.Version), [.rpmOstree "status" ["--json"]])) ∧
    (d.CustomOrigin = [] →
      GetBootedOSImageURL env =
        (.ok ("", d.Version), [.rpmOstree "status" ["--json"]])) ∧
    ((∀ c ∈ d.CustomOrigin, strHasPfx "pivot://" c = false) →
      GetBootedOSImageURL env =
        (.ok ("", d.Version), [.rpmOstree "status" ["--json"]])) := by
  have hred := GetBootedOSImageURL_reduce env out st d hq hp hfb
  refine ⟨rfl, ?_, ?_, ?_⟩
  · intro rest hco
    rw [hco] at hred
    dsimp only at hred
    unfold rebaseCustomURL at hred
    rw [if_pos (strHasPfx_pivot R)] at hred
    have hdrop := drop_pivot R
    unfold String.mk at hdrop
    rw [hdrop] at hred
    exact hred
  · intro hco
    rw [hco] at hred
    exact hred
  · intro hall
    cases hd : d.CustomOrigin with
    | nil =>
      rw [hd] at hred
      exact hred
    | cons c0 rest =>
      have hc0 : strHasPfx "pivot://" c0 = false :=
        hall c0 (hd ▸ List.mem_cons_self c0 rest)
      rw [hd] at hred
      dsimp only at hred
      rw [if_neg (by simp [hc0])] at hred
      exact hred

/-- Claim C6 witness: the round trip on `envBooted` (origin written for
image `quay.io/os@sha256:aa`), the empty-origin case on `envBare`, and the
untagged-origin case on `envCustom`. -/
theorem C6_custom_origin_roundtrip_witness :
    GetBootedOSImageURL envBooted =
      (.ok ("quay.io/os@sha256:aa", "47.1"), [.rpmOstree "status" ["--json"]]) ∧
    GetBootedOSImageURL envBare =
      (.ok ("", "47.2"), [.rpmOstree "status" ["--json"]]) ∧
    GetBootedOSImageURL envCustom =
      (.ok ("", "47.3"), [.rpmOstree "status" ["--json"]]) := by
  refine ⟨?_, ?_, ?_⟩
  · exact (C6_custom_origin_roundtrip envBooted "ST" "quay.io/os@sha256:aa"
      stParsed depBooted rfl rfl rfl).2.1 [] rfl
  · exact (C6_custom_origin_roundtrip envBare "ST" "" ⟨[depBare]⟩ depBare
      rfl rfl rfl).2.2.1 rfl
  · exact (C6_custom_origin_roundtrip envCustom "ST" "" ⟨[depCustom]⟩ depCustom
      rfl rfl rfl).2.2.2 (by decide)

/-!  ### Quote-aware splitting refinement (C7)  -/

theorem markWith_cons (c : Char) (cs : List Char) (q : Bool) :
    markWith (c :: cs) q =
      (c, decide (c = ' ') && !q) ::
        markWith cs (if c = '"' then !q else q) := by
  unfold markWith
  rw [List.length_cons, List.range_succ_eq_map, List.map_cons, List.map_map]
  congr 1
  · simp only [List.getD_cons_zero, List.take_zero, List.count_nil,
      Nat.zero_add]
    cases q <;> rfl
  · apply List.map_congr_left
    intro i _
    simp only [Function.comp_apply, List.getD_cons_succ, List.take_succ_cons,
      List.count_cons]
    by_cases hcq : c = '"'
    · subst hcq
      simp only [beq_self_eq_true, if_true, if_pos]
      cases q <;>
        simp [cond_true, cond_false, Bool.not_true, Bool.not_false,
          Nat.add_assoc, Nat.add_mod_right]
    · have hb : (c == '"') = false := by simp [hcq]
      simp [hb, hcq]

theorem splitMarked_markWith (cs : List Char) (q : Bool) (acc : List Char) :
    splitMarked (markWith cs q) acc = fieldsAux cs q acc := by
  induction cs generalizing q acc with
  | nil => rfl
  | cons c cs ih =>
    rw [markWith_cons]
    by_cases hc : c = ' '
    · subst hc
      cases q with
      | false => simp [splitMarked, fieldsAux, ih]
      | true => simp [splitMarked, fieldsAux, ih]
    · by_cases hcq : c = '"'
      · subst hcq
        cases q with
        | false => simp [splitMarked, fieldsAux, ih]
        | true => simp [splitMarked, fieldsAux, ih]
      · cases q with
        | false => simp [splitMarked, fieldsAux, ih, hc, hcq]
        | true => simp [splitMarked, fieldsAux, ih, hc, hcq]

theorem quoteSpaceSplitSpec_eq (s : String) :
    quoteSpaceSplitSpec s = quoteSpaceSplit s := by
  unfold quoteSpaceSplitSpec quoteSpaceSplit
  rw [splitMarked_markWith]

/-- Claim C7: `GetKernelArgs` splits the host kernel-argument query output
exactly as the specification describes — a space is a token boundary
precisely when the number of double quotes before it is even (quotes
toggle the quoted span), so quoted spaces stay inside a single token:
the result is `quoteSpaceSplitSpec` of the output. -/
theorem C7_getKernelArgs_quote_aware (cmdr : Commander) (out : String)
    (h : cmdr "kargs" [] = (out, none)) :
    GetKernelArgs cmdr =
      (.ok (quoteSpaceSplitSpec out), [.rpmOstree "kargs" []]) := by
  unfold GetKernelArgs
  rw [h, quoteSpaceSplitSpec_eq]

/-- Claim C7 witness: on `cmdrQuoted` the listing
`root=/dev/sda opts="a b"` splits into two tokens, the quoted space kept
inside the second. -/
theorem C7_getKernelArgs_quote_aware_witness :
    GetKernelArgs cmdrQuoted =
      (.ok (quoteSpaceSplitSpec "root=/dev/sda opts=\"a b\""),
       [.rpmOstree "kargs" []]) ∧
    quoteSpaceSplitSpec "root=/dev/sda opts=\"a b\"" =
      ["root=/dev/sda", "opts=\"a b\""] :=
  ⟨C7_getKernelArgs_quote_aware cmdrQuoted _ rfl, by decide⟩

/-!  ### Composite kernel-argument expansion (C4)  -/

theorem noBoundary_consume (cs : List Char) (q : Bool) (acc : List Char)
    (h : noBoundary cs q = true) :
    fieldsAux cs q acc =
      if acc.reverse ++ cs = [] then [] else [acc.reverse ++ cs] := by
  induction cs generalizing q acc with
  | nil =>
    by_cases ha : acc = []
    · simp [fieldsAux, ha]
    · simp [fieldsAux, ha]
  | cons c cs ih =>
    simp only [noBoundary] at h
    by_cases hcond : ((if c = '"' then !q else q) = false ∧ c = ' ')
    · rw [if_pos hcond] at h
      cases h
    · rw [if_neg hcond] at h
      simp only [fieldsAux, if_neg hcond]
      rw [ih _ _ h]
      simp

theorem scan_through (xs : List Char) (q : Bool) (h : noBoundary xs q = true) :
    ∀ ys acc, fieldsAux (xs ++ ys) q acc =
      fieldsAux ys (endQuoted xs q) (xs.reverse ++ acc) := by
  induction xs generalizing q with
  | nil => intro ys acc; simp [endQuoted]
  | cons c cs ih =>
    intro ys acc
    simp only [noBoundary] at h
    by_cases hcond : ((if c = '"' then !q else q) = false ∧ c = ' ')
    · rw [if_pos hcond] at h
      cases h
    · rw [if_neg hcond] at h
      simp only [List.cons_append, fieldsAux, if_neg hcond, List.append_eq]
      rw [ih _ h]
      simp [endQuoted, List.append_assoc]

theorem singleKargToken_split (s : String) (h : singleKargToken s = true) :
    quoteSpaceSplit s = [s] := by
  unfold singleKargToken at h
  rw [Bool.and_eq_true] at h
  obtain ⟨h1, h2⟩ := h
  have hne : s.data ≠ [] := by
    intro he
    rw [he] at h1
    cases h1
  unfold quoteSpaceSplit
  rw [noBoundary_consume s.data false [] h2]
  simp [hne]

theorem composite_split (a b : String) (ha : singleKargToken a = true)
    (hqa : balancedQuotes a = true) (hb : singleKargToken b = true) :
    quoteSpaceSplit (a ++ " " ++ b) = [a, b] := by
  have ha' := ha
  unfold singleKargToken at ha'
  rw [Bool.and_eq_true] at ha'
  obtain ⟨ha1, ha2⟩ := ha'
  have hane : a.data ≠ [] := by
    intro he
    rw [he] at ha1
    cases ha1
  have hb' := hb
  unfold singleKargToken at hb'
  rw [Bool.and_eq_true] at hb'
  obtain ⟨hb1, hb2⟩ := hb'
  have hbne : b.data ≠ [] := by
    intro he
    rw [he] at hb1
    cases hb1
  have hqa' : endQuoted a.data false = false := by
    unfold balancedQuotes at hqa
    simp at hqa
    exact hqa
  have hdata : (a ++ " " ++ b).data = a.data ++ (' ' :: b.data) := by
    rw [String.data_append, String.data_append]
    simp [List.append_assoc]
  unfold quoteSpaceSplit
  rw [hdata, scan_through a.data false ha2 (' ' :: b.data) [], hqa']
  simp only [fieldsAux, List.append_nil]
  have hcnd : ((if (' ' : Char) = '"' then !false else false) = false ∧
      True) := ⟨by decide, trivial⟩
  rw [if_pos hcnd]
  rw [if_neg (show ¬ (a.data.reverse = []) by simp [hane])]
  have hq2 : (if (' ' : Char) = '"' then !false else false) = false := by decide
  rw [hq2, noBoundary_consume b.data false [] hb2]
  simp only [List.reverse_nil, List.nil_append, if_neg hbne,
    List.reverse_reverse, List.map_cons, List.map_nil]

theorem processTokens_append (cmdr : Commander) (op : Int)
    (svs1 svs2 : List String) (kargs : List String) :
    processTokens cmdr op (svs1 ++ svs2) kargs =
      (match processTokens cmdr op svs1 kargs with
       | (.error e, tr) => (.error e, tr)
       | (.ok k2, tr) =>
         match processTokens cmdr op svs2 k2 with
         | (r, tr2) => (r, tr ++ tr2)) := by
  induction svs1 generalizing kargs with
  | nil =>
    rcases h2 : processTokens cmdr op svs2 kargs with ⟨r, tr2⟩
    simp [processTokens, h2]
  | cons sv svs ih =>
    simp only [List.cons_append, processTokens, List.append_eq]
    rcases hpt : processToken cmdr op sv kargs with ⟨r, tr⟩
    cases r with
    | error e => rfl
    | ok k1 =>
      dsimp only
      rw [ih]
      rcases h1 : processTokens cmdr op svs k1 with ⟨r1, tr1⟩
      cases r1 with
      | error e => rfl
      | ok k2 =>
        rcases h2 : processTokens cmdr op svs2 k2 with ⟨r2, tr2⟩
        simp [h2, List.append_assoc]

/-- Claim C4 (amended: the first token must contain balanced double
quotes): for single tokens `a` and `b` where `a` has an even number of
`'"'` characters, handing `SetKernelArgs` the composite argument
`a ++ " " ++ b` queues the same flags, performs the same host calls and
returns the same result as handing it `a` and `b` as two independent
arguments with the same operation. -/
theorem C4_composite_expansion (cmdr : Commander) (op : Int) (a b : String)
    (ha : singleKargToken a = true) (hqa : balancedQuotes a = true)
    (hb : singleKargToken b = true) :
    processArgs cmdr [⟨op, a ++ " " ++ b⟩] [] =
      processArgs cmdr [⟨op, a⟩, ⟨op, b⟩] [] ∧
    SetKernelArgs cmdr [⟨op, a ++ " " ++ b⟩] =
      SetKernelArgs cmdr [⟨op, a⟩, ⟨op, b⟩] := by
  have h1 : processArgs cmdr [⟨op, a ++ " " ++ b⟩] [] =
      processArgs cmdr [⟨op, a⟩, ⟨op, b⟩] [] := by
    simp only [processArgs, composite_split a b ha hqa hb,
      singleKargToken_split a ha, singleKargToken_split b hb]
    rw [show ([a, b] : List String) = [a] ++ [b] from rfl,
      processTokens_append]
    rcases hta : processTokens cmdr op [a] [] with ⟨r1, tr1⟩
    cases r1 with
    | error e => rfl
    | ok k1 =>
      rcases htb : processTokens cmdr op [b] k1 with ⟨r2, tr2⟩
      cases r2 with
      | error e => simp [htb]
      | ok k2 => simp [htb]
  refine ⟨h1, ?_⟩
  unfold SetKernelArgs
  rw [h1]

/-- Claim C4 witness: the composite `"a=1 b=2"` under Add reconciles
identically to the two independent requests on `cmdrKargs`. -/
theorem C4_composite_expansion_witness :
    SetKernelArgs cmdrKargs [⟨kargAdd, "a=1" ++ " " ++ "b=2"⟩] =
      SetKernelArgs cmdrKargs [⟨kargAdd, "a=1"⟩, ⟨kargAdd, "b=2"⟩] :=
  (C4_composite_expansion cmdrKargs kargAdd "a=1" "b=2" (by decide)
    (by decide) (by decide)).2

/-- Claim C4 counterexample: `"x` (an unbalanced quote) and `y` are both
single tokens of the splitter, yet the composite built from them is not
expanded — its embedded space is inside the quoted span — so the composite
request queues one flag while the two independent requests queue two,
refuting the claim for arbitrary single tokens. -/
theorem C4_composite_expansion_counterexample :
    quoteSpaceSplit "\"x" = ["\"x"] ∧
    quoteSpaceSplit "y" = ["y"] ∧
    "\"x" ++ " " ++ "y" = "\"x y" ∧
    SetKernelArgs cmdrEmpty [⟨kargAdd, "\"x y"⟩] ≠
      SetKernelArgs cmdrEmpty [⟨kargAdd, "\"x"⟩, ⟨kargAdd, "y"⟩] :=
  ⟨by decide, by decide, rfl, by decide⟩

/-!  ### Kernel-argument reconciliation (C3)  -/

theorem isKernelArgInUse_trace (cmdr : Commander) (a : String) :
    (isKernelArgInUse cmdr a).2 = [.rpmOstree "kargs" []] := by
  unfold isKernelArgInUse GetKernelArgs
  rcases h : cmdr "kargs" [] with ⟨o, e⟩
  cases e <;> rfl

theorem isKernelArgInUse_notFound (cmdr : Commander) (out sv : String)
    (h : cmdr "kargs" [] = (out, none))
    (habs : ∀ v ∈ quoteSpaceSplit out, strHasPfx sv v = false) :
    isKernelArgInUse cmdr sv = (.ok false, [.rpmOstree "kargs" []]) := by
  unfold isKernelArgInUse GetKernelArgs
  rw [h]
  dsimp only
  have hany : (quoteSpaceSplit out).any (fun v => strHasPfx sv v) = false :=
    List.any_eq_false.mpr (fun x hx => by simp [habs x hx])
  rw [hany]

theorem processToken_noop (cmdr : Commander) (out : String) (op : Int)
    (sv : String) (kargs : List String)
    (h : cmdr "kargs" [] = (out, none)) (hop : op ≠ kargAdd)
    (habs : ∀ v ∈ quoteSpaceSplit out, strHasPfx sv v = false) :
    processToken cmdr op sv kargs =
      (.ok kargs,
       if op = kargRemove then [.rpmOstree "kargs" []] else []) := by
  unfold processToken
  rw [if_neg hop]
  by_cases hrem : op = kargRemove
  · rw [if_pos hrem, isKernelArgInUse_notFound cmdr out sv h habs,
      if_pos hrem]
  · rw [if_neg hrem, if_neg hrem]

theorem processTokens_noop (cmdr : Commander) (out : String) (op : Int)
    (svs : List String) (kargs : List String)
    (h : cmdr "kargs" [] = (out, none)) (hop : op ≠ kargAdd)
    (habs : ∀ sv ∈ svs, ∀ v ∈ quoteSpaceSplit out, strHasPfx sv v = false) :
    (processTokens cmdr op svs kargs).1 = .ok kargs ∧
    ∀ c ∈ (processTokens cmdr op svs kargs).2,
      c = .rpmOstree "kargs" [] := by
  induction svs generalizing kargs with
  | nil => exact ⟨rfl, by simp [processTokens]⟩
  | cons sv svs ih =>
    have hpt := processToken_noop cmdr out op sv kargs h hop
      (habs sv (by simp))
    simp only [processTokens, hpt]
    have ihh := ih kargs (fun sv' hsv' => habs sv' (by simp [hsv']))
    rcases hrec : processTokens cmdr op svs kargs with ⟨r, tr⟩
    rw [hrec] at ihh
    dsimp only at ihh ⊢
    refine ⟨ihh.1, ?_⟩
    intro c hc
    rcases List.mem_append.mp hc with hc | hc
    · by_cases hrem : op = kargRemove
      · rw [if_pos hrem] at hc
        simpa using hc
      · rw [if_neg hrem] at hc
        cases hc
    · exact ihh.2 c hc

theorem processArgs_noop (cmdr : Commander) (out : String)
    (args : List KernelArgument) (kargs : List String)
    (h : cmdr "kargs" [] = (out, none))
    (hop : ∀ v ∈ args, v.Operation ≠ kargAdd)
    (habs : ∀ v ∈ args, ∀ sv ∈ quoteSpaceSplit v.Name,
      ∀ cur ∈ quoteSpaceSplit out, strHasPfx sv cur = false) :
    (processArgs cmdr args kargs).1 = .ok kargs ∧
    ∀ c ∈ (processArgs cmdr args kargs).2,
      c = .rpmOstree "kargs" [] := by
  induction args generalizing kargs with
  | nil => exact ⟨rfl, by simp [processArgs]⟩
  | cons v vs ih =>
    have hts := processTokens_noop cmdr out v.Operation
      (quoteSpaceSplit v.Name) kargs h (hop v (by simp)) (habs v (by simp))
    rcases ht : processTokens cmdr v.Operation (quoteSpaceSplit v.Name) kargs
      with ⟨r, tr⟩
    rw [ht] at hts
    dsimp only at hts
    have hr : r = .ok kargs := hts.1
    subst hr
    simp only [processArgs, ht]
    have ihh := ih kargs (fun v' hv' => hop v' (by simp [hv']))
      (fun v' hv' => habs v' (by simp [hv']))
    rcases hrec : processArgs cmdr vs kargs with ⟨r2, tr2⟩
    rw [hrec] at ihh
    dsimp only at ihh ⊢
    refine ⟨ihh.1, ?_⟩
    intro c hc
    rcases List.mem_append.mp hc with hc | hc
    · exact hts.2 c hc
    · exact ihh.2 c hc

theorem processToken_trace (cmdr : Commander) (op : Int) (sv : String)
    (kargs : List String) :
    ∀ c ∈ (processToken cmdr op sv kargs).2,
      c = .rpmOstree "kargs" [] := by
  unfold processToken
  by_cases hadd : op = kargAdd
  · rw [if_pos hadd]
    simp
  · rw [if_neg hadd]
    by_cases hrem : op = kargRemove
    · rw [if_pos hrem]
      rcases hu : isKernelArgInUse cmdr sv with ⟨r, tr⟩
      have htr : tr = [.rpmOstree "kargs" []] := by
        have h0 := isKernelArgInUse_trace cmdr sv
        rw [hu] at h0
        exact h0
      subst htr
      cases r with
      | error e => simp
      | ok b => cases b <;> simp
    · rw [if_neg hrem]
      simp

theorem processTokens_trace (cmdr : Commander) (op : Int)
    (svs : List String) (kargs : List String) :
    ∀ c ∈ (processTokens cmdr op svs kargs).2,
      c = .rpmOstree "kargs" [] := by
  induction svs generalizing kargs with
  | nil => simp [processTokens]
  | cons sv svs ih =>
    rcases hpt : processToken cmdr op sv kargs with ⟨r, tr⟩
    have htr : ∀ c ∈ tr, c = HostCall.rpmOstree "kargs" [] := by
      intro c hc
      exact processToken_trace cmdr op sv kargs c (by rw [hpt]; exact hc)
    simp only [processTokens, hpt]
    cases r with
    | error e => exact htr
    | ok k1 =>
      rcases hrec : processTokens cmdr op svs k1 with ⟨r2, tr2⟩
      dsimp only
      intro c hc
      rcases List.mem_append.mp hc with hc | hc
      · exact htr c hc
      · exact ih k1 c hc

theorem processArgs_trace (cmdr : Commander) (args : List KernelArgument)
    (kargs : List String) :
    ∀ c ∈ (processArgs cmdr args kargs).2,
      c = .rpmOstree "kargs" [] := by
  induction args generalizing kargs with
  | nil => simp [processArgs]
  | cons v vs ih =>
    rcases ht : processTokens cmdr v.Operation (quoteSpaceSplit v.Name) kargs
      with ⟨r, tr⟩
    have htr : ∀ c ∈ tr, c = HostCall.rpmOstree "kargs" [] := by
      intro c hc
      exact processTokens_trace cmdr v.Operation (quoteSpaceSplit v.Name)
        kargs c (by rw [ht]; exact hc)
    simp only [processArgs, ht]
    cases r with
    | error e => exact htr
    | ok k1 =>
      rcases hrec : processArgs cmdr vs k1 with ⟨r2, tr2⟩
      dsimp only
      intro c hc
      rcases List.mem_append.mp hc with hc | hc
      · exact htr c hc
      · exact ih k1 c hc

/-- Claim C3 (amended: the Remove-token liveness checks are themselves
read-only kernel-argument query commands): when every requested argument
is a Remove (no Add operations) whose expanded tokens are all absent from
the current kernel-argument list, `SetKernelArgs` queues no flags, issues
no kernel-argument-setting command — every host call it makes is the
read-only query `kargs` with no arguments — and returns successfully with
empty output; and whenever processing queues at least one flag, exactly one
combined setting command is issued, carrying all queued flags. -/
theorem C3_setKernelArgs_reconcile (cmdr : Commander) :
    (∀ out args, cmdr "kargs" [] = (out, none) →
      (∀ v ∈ args, v.Operation ≠ kargAdd) →
      (∀ v ∈ args, ∀ sv ∈ quoteSpaceSplit v.Name,
        ∀ cur ∈ quoteSpaceSplit out, strHasPfx sv cur = false) →
      (SetKernelArgs cmdr args).1 = ("", none) ∧
      ∀ c ∈ (SetKernelArgs cmdr args).2, c = .rpmOstree "kargs" []) ∧
    (∀ args flags tr, processArgs cmdr args [] = (.ok flags, tr) →
      flags ≠ [] →
      SetKernelArgs cmdr args =
        (cmdr "kargs" flags, tr ++ [.rpmOstree "kargs" flags]) ∧
      ∀ c ∈ tr, c = .rpmOstree "kargs" []) := by
  constructor
  · intro out args h hop habs
    have hpa := processArgs_noop cmdr out args [] h hop habs
    rcases hrec : processArgs cmdr args [] with ⟨r, tr⟩
    rw [hrec] at hpa
    dsimp only at hpa
    have hr : r = .ok [] := hpa.1
    subst hr
    unfold SetKernelArgs
    rw [hrec]
    dsimp only
    simp only [List.length_nil]
    rw [if_pos trivial]
    exact ⟨rfl, hpa.2⟩
  · intro args flags tr hpa hne
    constructor
    · unfold SetKernelArgs
      rw [hpa]
      dsimp only
      rw [if_neg (fun hlen => hne (List.length_eq_zero.mp hlen))]
    · intro c hcm
      exact processArgs_trace cmdr args [] c (by rw [hpa]; exact hcm)

/-- Claim C3 counterexample: the claim's scenario — one Remove token that
is absent, no Add tokens — does issue a host command: the read-only
`kargs` query used for the liveness check, so the trace is nonempty. -/
theorem C3_setKernelArgs_reconcile_counterexample :
    quoteSpaceSplit "bar=1 baz=2" = ["bar=1", "baz=2"] ∧
    strHasPfx "foo" "bar=1" = false ∧
    strHasPfx "foo" "baz=2" = false ∧
    SetKernelArgs cmdrKargs [⟨kargRemove, "foo"⟩] =
      (("", none), [.rpmOstree "kargs" []]) :=
  ⟨by decide, by decide, by decide, by decide⟩

/-- Claim C3 witness: the no-op Remove on `cmdrKargs`, and the single
combined setting command for one queued Add flag. -/
theorem C3_setKernelArgs_reconcile_witness :
    (SetKernelArgs cmdrKargs [⟨kargRemove, "foo"⟩]).1 = ("", none) ∧
    (∀ c ∈ (SetKernelArgs cmdrKargs [⟨kargRemove, "foo"⟩]).2,
      c = HostCall.rpmOstree "kargs" []) ∧
    SetKernelArgs cmdrKargs [⟨kargAdd, "quux"⟩] =
      (cmdrKargs "kargs" ["--append=quux"],
       [] ++ [.rpmOstree "kargs" ["--append=quux"]]) := by
  have h1 := (C3_setKernelArgs_reconcile cmdrKargs).1 "bar=1 baz=2"
    [⟨kargRemove, "foo"⟩] rfl (by decide) (by decide)
  have h2 := (C3_setKernelArgs_reconcile cmdrKargs).2 [⟨kargAdd, "quux"⟩]
    ["--append=quux"] [] rfl (by decide)
  exact ⟨h1.1, h1.2, h2.1⟩
